import Mathlib

/-!
# EncodingSupport_md.c: conversion between UTF-8 and the platform encoding

A shallow embedding of `src/java.instrument/unix/native/libinstrument/EncodingSupport_md.c`.

* Memory reachable from a `char *` is a total map from offsets to bytes, a null pointer is `none`.
* `int` values are `Int`, `size_t` values are `Nat` below `2^64`; the conversions between the two
  are explicit.
* The two file-scope handles live in `State`; `State.trace` records, oldest first, the calls made
  to the C library (`setlocale`, `nl_langinfo`, `iconv_open`, `iconv_close`).
* The C library itself (`nl_langinfo`, `getenv`, `iconv_open`, `iconv`) is a parameter, `Env`.
* `utfError` prints a diagnostic and calls `abort()`: a function that may reach it returns an `Exit`.
-/

namespace EncodingSupport

/-! ## Memory and machine integers -/

/-- Bytes reachable from a `char *`, indexed by the offset from the pointer. -/
abbrev Mem := Int → Nat

/-- The assignment `p[i] = v`. -/
def store (m : Mem) (i : Int) (v : Nat) : Mem :=
  fun j => if j = i then v else m j

/-- The call `memcpy(dst, src, n)`; source and destination do not overlap. -/
def memcpy (dst src : Mem) (n : Nat) : Mem :=
  fun j => if 0 ≤ j ∧ j < (n : Int) then src j else dst j

/-- Largest `int`. -/
def INT_MAX : Int := 2 ^ 31 - 1

/-- Largest `size_t`; `(size_t)-1`, the value `iconv` returns on error. -/
def SIZE_MAX : Nat := 2 ^ 64 - 1

/-- Conversion of an `int` to `size_t`. -/
def int_to_size_t (x : Int) : Nat := (x % 2 ^ 64).toNat

/-- Conversion of a `size_t` to `int`: the low 32 bits, read as a signed 32-bit value. -/
def size_t_to_int (x : Nat) : Int :=
  if x % 2 ^ 32 < 2 ^ 31 then ((x % 2 ^ 32 : Nat) : Int) else ((x % 2 ^ 32 : Nat) : Int) - 2 ^ 32

/-- Subtraction of two `size_t` values. -/
def size_t_sub (a b : Nat) : Nat := Int.toNat (((a : Int) - (b : Int)) % 2 ^ 64)

/-! ## The error handler -/

/-- How a call ends: it returns a value, or `utfError` has written its diagnostic
`UTF ERROR ["file":line]: message` to stderr and called `abort()`. -/
inductive Exit (α : Type) where
  | returned (value : α)
  | aborted (file : String) (line : Nat) (message : String)
  deriving DecidableEq, Repr

/-- The expansion of `__FILE__`. -/
def srcFile : String := "EncodingSupport_md.c"

/-- The function `utfError(file, line, message)`: print the diagnostic, then `abort()`. -/
def utfError {α : Type} (file : String) (line : Nat) (message : String) : Exit α :=
  Exit.aborted file line message

/-- An `Exit` is an abort. -/
def Exit.isAborted {α : Type} : Exit α → Bool
  | Exit.returned _ => false
  | Exit.aborted _ _ _ => true

/-! ## The conversion engine -/

/-- What one call `iconv(cd, &inbuf, &inLeft, &outbuf, &outLeft)` leaves behind. -/
structure IconvResult where
  /-- The `size_t` result: the number of irreversible conversions, or `(size_t)-1`. -/
  returnValue : Nat
  /-- The value of `inLeft` after the call: source bytes not consumed. -/
  inLeft : Nat
  /-- The value of `outLeft` after the call: destination bytes not used. -/
  outLeft : Nat
  /-- The destination memory after the call. -/
  output : Mem

/-- The library function `iconv`, as a function of the descriptor, the source memory, `inLeft`,
the destination memory and `outLeft`. The conversion state kept inside a descriptor between calls
is not modelled; no statement below depends on what the engine does, except where it says so. -/
abbrev IconvFn := Int → Mem → Nat → Mem → Nat → IconvResult

/-! ## iconvConvert -/

/-- The function `iconvConvert(ic, bytes, len, output, outputMaxLen)`. The result is the exit together with the
destination memory as the call leaves it. -/
def iconvConvert (iconv : IconvFn) (ic : Int) (bytes : Option Mem) (len : Int)
    (output : Option Mem) (outputMaxLen : Int) : Exit Int × Option Mem :=
  match bytes with
  | none => (utfError srcFile 209 "ASSERT ERROR bytes", output)
  | some src =>
    if ¬ (len ≥ 0) then (utfError srcFile 210 "ASSERT ERROR len>=0", output) else
    match output with
    | none => (utfError srcFile 211 "ASSERT ERROR output", none)
    | some dst =>
      if ¬ (outputMaxLen > len) then
        (utfError srcFile 212 "ASSERT ERROR outputMaxLen>len", some dst)
      else
        let dst0 := store dst 0 0
        if ic ≠ -1 then
          let r := iconv ic src (int_to_size_t len) dst0 (int_to_size_t outputMaxLen)
          let returnValue := size_t_to_int r.returnValue
          if returnValue ≥ 0 ∧ r.inLeft = 0 then
            let outputLen := size_t_to_int (size_t_sub (int_to_size_t outputMaxLen) r.outLeft)
            (Exit.returned outputLen, some (store r.output outputLen 0))
          else
            (Exit.returned (-1), some r.output)
        else
          let dst1 := memcpy dst0 src (int_to_size_t len)
          (Exit.returned len, some (store dst1 len 0))

/-! ## The handles and the C library -/

/-- A call into the C library that the claims count. -/
inductive Event where
  /-- The call `setlocale(LC_ALL, "")`. -/
  | setlocale
  /-- The call `nl_langinfo(CODESET)`. -/
  | nl_langinfo
  /-- The call `iconv_open(tocode, fromcode)` and the descriptor it returned. -/
  | iconv_open (tocode fromcode : String) (result : Int)
  /-- The call `iconv_close(cd)`. -/
  | iconv_close (cd : Int)
  deriving DecidableEq, Repr

/-- The file-scope variables `iconvToPlatform` and `iconvFromPlatform` (`-1` is `(iconv_t)-1`,
no descriptor), and the library calls made so far, oldest first. -/
structure State where
  iconvToPlatform : Int
  iconvFromPlatform : Int
  trace : List Event
  deriving DecidableEq, Repr

/-- The state at program start: both handles are `(iconv_t)-1`. -/
def initialState : State :=
  { iconvToPlatform := -1, iconvFromPlatform := -1, trace := [] }

/-- The C library and the process environment as the code sees them. -/
structure Env where
  /-- Whether the file is compiled with `MACOSX` defined. -/
  MACOSX : Bool
  /-- The result of `nl_langinfo(CODESET)`; `none` is `NULL`. -/
  nl_langinfo : Option String
  /-- The function `getenv`; `none` is `NULL`. -/
  getenv : String → Option String
  /-- The function `iconv_open(tocode, fromcode)`; `-1` is `(iconv_t)-1`, failure. -/
  iconv_open : String → String → Int
  /-- The function `iconv`. -/
  iconv : IconvFn

/-- The function `utfInitialize()`. -/
def utfInitialize (env : Env) (s : State) : Exit Unit × State :=
  let s1 : State := { s with trace := s.trace ++ [Event.setlocale] }
  let s2 : State := { s1 with trace := s1.trace ++ [Event.nl_langinfo] }
  match env.nl_langinfo with
  | none => (Exit.returned (), s2)
  | some codeset0 =>
    if codeset0 = "" then (Exit.returned (), s2) else
    let env_lang := env.getenv "LANG"
    let env_lc_all := env.getenv "LC_ALL"
    let env_lc_ctype := env.getenv "LC_CTYPE"
    let codeset :=
      if env.MACOSX = true ∧ codeset0 = "US-ASCII"
          ∧ (env_lang = none ∨ env_lang = some "")
          ∧ (env_lc_all = none ∨ env_lc_all = some "")
          ∧ (env_lc_ctype = none ∨ env_lc_ctype = some "") then
        "UTF-8"
      else codeset0
    if codeset = "UTF-8" ∨ codeset = "utf8" then (Exit.returned (), s2) else
    let toPlatform := env.iconv_open codeset "UTF-8"
    let s3 : State :=
      { s2 with iconvToPlatform := toPlatform,
                trace := s2.trace ++ [Event.iconv_open codeset "UTF-8" toPlatform] }
    if toPlatform = -1 then
      (utfError srcFile 176 "Failed to complete iconv_open() setup", s3)
    else
      let fromPlatform := env.iconv_open "UTF-8" codeset
      let s4 : State :=
        { s3 with iconvFromPlatform := fromPlatform,
                  trace := s3.trace ++ [Event.iconv_open "UTF-8" codeset fromPlatform] }
      if fromPlatform = -1 then
        (utfError srcFile 180 "Failed to complete iconv_open() setup", s4)
      else
        (Exit.returned (), s4)

/-- The function `utfTerminate()`; the result of `iconv_close` is discarded. -/
def utfTerminate (s : State) : State :=
  let s1 : State :=
    if s.iconvFromPlatform ≠ -1 then
      { s with trace := s.trace ++ [Event.iconv_close s.iconvFromPlatform] }
    else s
  let s2 : State :=
    if s1.iconvToPlatform ≠ -1 then
      { s1 with trace := s1.trace ++ [Event.iconv_close s1.iconvToPlatform] }
    else s1
  { s2 with iconvToPlatform := -1, iconvFromPlatform := -1 }

/-- The function `utf8ToPlatform(utf8, len, output, outputMaxLen)`. -/
def utf8ToPlatform (env : Env) (s : State) (utf8 : Option Mem) (len : Int)
    (output : Option Mem) (outputMaxLen : Int) : Exit Int × Option Mem :=
  iconvConvert env.iconv s.iconvToPlatform utf8 len output outputMaxLen

/-- The function `platformToUtf8(str, len, output, outputMaxLen)`. -/
def platformToUtf8 (env : Env) (s : State) (str : Option Mem) (len : Int)
    (output : Option Mem) (outputMaxLen : Int) : Exit Int × Option Mem :=
  iconvConvert env.iconv s.iconvFromPlatform str len output outputMaxLen

/-- The entry point `convertUft8ToPlatformString(utf8_str, utf8_len, platform_str, platform_len)`:
the exit, the destination memory and the state it leaves. -/
def convertUft8ToPlatformString (env : Env) (s : State) (utf8_str : Option Mem) (utf8_len : Int)
    (platform_str : Option Mem) (platform_len : Int) : Exit Int × Option Mem × State :=
  if s.iconvToPlatform = -1 then
    match utfInitialize env s with
    | (Exit.aborted file line message, s1) => (Exit.aborted file line message, platform_str, s1)
    | (Exit.returned _, s1) =>
      ((utf8ToPlatform env s1 utf8_str utf8_len platform_str platform_len).1,
        (utf8ToPlatform env s1 utf8_str utf8_len platform_str platform_len).2, s1)
  else
    ((utf8ToPlatform env s utf8_str utf8_len platform_str platform_len).1,
      (utf8ToPlatform env s utf8_str utf8_len platform_str platform_len).2, s)

/-! ## Sequences of calls and what is counted in a trace -/

/-- The arguments of one call of the entry point. -/
structure Call where
  utf8_str : Option Mem
  utf8_len : Int
  platform_str : Option Mem
  platform_len : Int

/-- A client calling the entry point once per element of the list, in order. The process is over
after a call that aborts: the calls after it are not made. The result is the exits of the calls
made and the final state. -/
def runCalls (env : Env) (s : State) : List Call → List (Exit Int) × State
  | [] => ([], s)
  | c :: cs =>
    match convertUft8ToPlatformString env s c.utf8_str c.utf8_len c.platform_str c.platform_len with
    | (Exit.aborted file line message, _, s1) => ([Exit.aborted file line message], s1)
    | (Exit.returned v, _, s1) =>
      (Exit.returned v :: (runCalls env s1 cs).1, (runCalls env s1 cs).2)

/-- The `iconv_open` calls of a trace, in order. -/
def opens (t : List Event) : List Event :=
  t.filter (fun e => match e with
    | Event.iconv_open _ _ _ => true
    | _ => false)

/-- The `iconv_close` calls of a trace, in order. -/
def closes (t : List Event) : List Event :=
  t.filter (fun e => match e with
    | Event.iconv_close _ => true
    | _ => false)

/-- The number of codeset queries `nl_langinfo(CODESET)` in a trace. -/
def resolverCalls (t : List Event) : Nat := t.count Event.nl_langinfo

/-- The number of `setlocale` calls in a trace. -/
def localeCalls (t : List Event) : Nat := t.count Event.setlocale

/-- The codeset `utfInitialize` ends up with (lines 145-165): `none` when `nl_langinfo` gives
`NULL` or the empty string, else the name it gives, replaced by "UTF-8" under `MACOSX` when the
name is "US-ASCII" and none of `LANG`, `LC_ALL`, `LC_CTYPE` is set to a non-empty value. -/
def resolvedCodeset (env : Env) : Option String :=
  match env.nl_langinfo with
  | none => none
  | some codeset0 =>
    if codeset0 = "" then none
    else if env.MACOSX = true ∧ codeset0 = "US-ASCII"
        ∧ (env.getenv "LANG" = none ∨ env.getenv "LANG" = some "")
        ∧ (env.getenv "LC_ALL" = none ∨ env.getenv "LC_ALL" = some "")
        ∧ (env.getenv "LC_CTYPE" = none ∨ env.getenv "LC_CTYPE" = some "") then
      some "UTF-8"
    else some codeset0

/-- The comparison the code makes at line 168: `strcmp` against "UTF-8" and against "utf8". -/
def isNoopCodeset (codeset : String) : Prop := codeset = "UTF-8" ∨ codeset = "utf8"

instance (codeset : String) : Decidable (isNoopCodeset codeset) := by
  unfold isNoopCodeset
  infer_instance

/-- The comparison the specification describes: equal to "UTF-8" or to the alias "utf8" when the
case of letters is ignored. -/
def isUtf8IgnoringCase (codeset : String) : Prop :=
  codeset.data.map Char.toLower = "utf-8".data ∨ codeset.data.map Char.toLower = "utf8".data

instance (codeset : String) : Decidable (isUtf8IgnoringCase codeset) := by
  unfold isUtf8IgnoringCase
  infer_instance

/-! ## Sample data -/

/-- The memory holding the given bytes at offsets `0, 1, ...` and `fill` everywhere else. -/
def memOf (bs : List Nat) (fill : Nat) : Mem :=
  fun j => if 0 ≤ j then bs.getD j.toNat fill else fill

/-- The bytes of a memory at offsets `0 .. n-1`. -/
def readBytes (m : Mem) (n : Nat) : List Nat :=
  (List.range n).map (fun i => m (i : Int))

/-- An engine that is never reached: it reports an error and touches nothing. -/
def noIconv : IconvFn := fun _ _ inLeft out outLeft =>
  { returnValue := SIZE_MAX, inLeft := inLeft, outLeft := outLeft, output := out }

/-- What iconv(3) promises of one call entered with `inLeft` source bytes and `outLeft` free
destination bytes: the result is `(size_t)-1` or a count of converted characters (at most one per
source byte), and neither counter grows. -/
def IconvResult.WellFormed (r : IconvResult) (inLeft outLeft : Nat) : Prop :=
  (r.returnValue = SIZE_MAX ∨ r.returnValue ≤ inLeft) ∧ r.inLeft ≤ inLeft ∧ r.outLeft ≤ outLeft

instance (r : IconvResult) (inLeft outLeft : Nat) : Decidable (r.WellFormed inLeft outLeft) := by
  unfold IconvResult.WellFormed
  infer_instance

/-- The memory `out` with the bytes `bs` written from offset `q` on. -/
def writeBytes (out : Mem) (q : Int) (bs : List Nat) : Mem :=
  fun j => if q ≤ j ∧ j < q + (bs.length : Int) then bs.getD (j - q).toNat 0 else out j

/-- The conversion loop of a sample engine for a stateless single-byte source encoding: `enc b` is
the encoding of the source byte `b` in the target encoding, or `none` when `b` cannot be
converted. The loop stops with `(size_t)-1` at the first source byte that cannot be converted
(EILSEQ) or whose encoding does not fit into the free destination bytes (E2BIG), and keeps what it
has written so far, as iconv(3) does. -/
def tableIconvLoop (enc : Nat → Option (List Nat)) (src : Mem) :
    Nat → Int → Mem → Int → Nat → IconvResult
  | 0, _, out, _, outLeft =>
    { returnValue := 0, inLeft := 0, outLeft := outLeft, output := out }
  | n + 1, p, out, q, outLeft =>
    match enc (src p) with
    | none => { returnValue := SIZE_MAX, inLeft := n + 1, outLeft := outLeft, output := out }
    | some bs =>
      if bs.length ≤ outLeft then
        tableIconvLoop enc src n (p + 1) (writeBytes out q bs) (q + (bs.length : Int))
          (outLeft - bs.length)
      else
        { returnValue := SIZE_MAX, inLeft := n + 1, outLeft := outLeft, output := out }

/-- A sample engine: byte-by-byte conversion through the table `enc`. -/
def tableIconv (enc : Nat → Option (List Nat)) : IconvFn :=
  fun _ src inLeft out outLeft => tableIconvLoop enc src inLeft 0 out 0 outLeft

/-- ISO-8859-1 to UTF-8, one source byte at a time. -/
def latin1ToUtf8 (b : Nat) : Option (List Nat) :=
  if b < 128 then some [b] else if b < 256 then some [192 + b / 64, 128 + b % 64] else none

/-- UTF-8 to US-ASCII restricted to what US-ASCII can hold: the bytes below 128. -/
def utf8ToAscii (b : Nat) : Option (List Nat) :=
  if b < 128 then some [b] else none

/-- The engine call made by `iconvConvert` for the ISO-8859-1 byte `E9` with `len = 1` and
`outputMaxLen = 3`. -/
def sampleCall : IconvResult :=
  tableIconv latin1ToUtf8 1 (memOf [233] 0) (int_to_size_t 1) (store (memOf [] 170) 0 0)
    (int_to_size_t 3)

/-- The bytes of "hello". -/
def helloBytes : List Nat := [104, 101, 108, 108, 111]

/-- A sample environment: a Linux process whose locale reports the given codeset, with an
`iconv_open` that knows every codeset (descriptor 1 for conversions from UTF-8, descriptor 2 for
conversions to UTF-8) and the given engine. -/
def sampleEnv (codeset : Option String) (iconv : IconvFn) : Env :=
  { MACOSX := false
    nl_langinfo := codeset
    getenv := fun _ => none
    iconv_open := fun _ fromcode => if fromcode = "UTF-8" then 1 else 2
    iconv := iconv }

/-- A sample call: "hello" with a destination of capacity 6. -/
def helloCall : Call :=
  { utf8_str := some (memOf helloBytes 255), utf8_len := 5
    platform_str := some (memOf [] 170), platform_len := 6 }

/-- A sample environment whose locale reports ISO-8859-1 and whose `iconv_open` knows no
conversion at all. -/
def noConversionEnv : Env :=
  { MACOSX := false
    nl_langinfo := some "ISO-8859-1"
    getenv := fun _ => none
    iconv_open := fun _ _ => -1
    iconv := noIconv }

/-- A call passes the four assertions of `iconvConvert`. -/
def Call.Valid (c : Call) : Prop :=
  c.utf8_str.isSome = true ∧ 0 ≤ c.utf8_len ∧ c.platform_str.isSome = true
    ∧ c.utf8_len < c.platform_len

instance (c : Call) : Decidable c.Valid := by
  unfold Call.Valid
  infer_instance

/-! ## Conversions between `int` and `size_t` -/

theorem int_to_size_t_of_nonneg (x : Int) (h0 : 0 ≤ x) (h1 : x ≤ INT_MAX) :
    (int_to_size_t x : Int) = x := by
  unfold int_to_size_t
  unfold INT_MAX at h1
  have h2 : x % 2 ^ 64 = x := Int.emod_eq_of_lt h0 (by omega)
  rw [h2, Int.toNat_of_nonneg h0]

/-! ## The raw-copy path of iconvConvert -/

/-- C1. Raw-copy identity: with an unopened context (`ic = (iconv_t)-1`), a non-null source, a
non-null destination, `0 <= len` and `len < outputMaxLen` (an `int`, so at most `INT_MAX`),
`iconvConvert` returns exactly `len`, the destination bytes at offsets `0 .. len-1` are the source
bytes, the byte at offset `len` is the zero terminator, and nothing beyond offset `len` is
written. -/
theorem iconvConvert_raw_copy (iconv : IconvFn) (src dst : Mem) (len outputMaxLen : Int)
    (h0 : 0 ≤ len) (h1 : len < outputMaxLen) (h2 : outputMaxLen ≤ INT_MAX) :
    ∃ out : Mem,
      iconvConvert iconv (-1) (some src) len (some dst) outputMaxLen
        = (Exit.returned len, some out)
      ∧ (∀ i : Int, 0 ≤ i → i < len → out i = src i)
      ∧ out len = 0
      ∧ (∀ i : Int, len < i → out i = dst i) := by
  have hlen : (int_to_size_t len : Int) = len := int_to_size_t_of_nonneg len h0 (by omega)
  refine ⟨store (memcpy (store dst 0 0) src (int_to_size_t len)) len 0, ?_, ?_, ?_, ?_⟩
  · unfold iconvConvert
    simp [h0, h1]
  · intro i hi0 hi1
    have hne : i ≠ len := by omega
    simp [store, memcpy, hne, hlen, hi0, hi1]
  · simp [store]
  · intro i hi
    have hne : i ≠ len := by omega
    have hne0 : i ≠ 0 := by omega
    have hnl : ¬ i < len := by omega
    simp [store, memcpy, hne, hne0, hlen, hnl]

/-- C1, the scenario of the specification: "hello" (5 bytes) into a destination of capacity 6 gives
5 and the bytes of "hello" followed by the terminator. -/
theorem iconvConvert_raw_copy_hello :
    (∃ out : Mem,
      iconvConvert noIconv (-1) (some (memOf helloBytes 255)) 5 (some (memOf [] 170)) 6
        = (Exit.returned 5, some out)
      ∧ (∀ i : Int, 0 ≤ i → i < 5 → out i = memOf helloBytes 255 i)
      ∧ out 5 = 0
      ∧ (∀ i : Int, 5 < i → out i = memOf [] 170 i))
    ∧ (iconvConvert noIconv (-1) (some (memOf helloBytes 255)) 5 (some (memOf [] 170)) 6).1
        = Exit.returned 5
    ∧ (iconvConvert noIconv (-1) (some (memOf helloBytes 255)) 5 (some (memOf [] 170)) 6).2.map
        (fun m => readBytes m 7) = some [104, 101, 108, 108, 111, 0, 170] :=
  ⟨iconvConvert_raw_copy noIconv (memOf helloBytes 255) (memOf [] 170) 5 6
      (by decide) (by decide) (by decide),
    by decide, by decide⟩

/-! ## The conversion path of iconvConvert -/

theorem size_t_to_int_SIZE_MAX : size_t_to_int SIZE_MAX = -1 := by decide

theorem size_t_to_int_of_small (x : Nat) (h : (x : Int) ≤ INT_MAX) : size_t_to_int x = (x : Int) := by
  unfold INT_MAX at h
  have hx : x < 2 ^ 31 := by omega
  have hm : x % 2 ^ 32 = x := Nat.mod_eq_of_lt (by omega)
  unfold size_t_to_int
  rw [hm, if_pos hx]

theorem size_t_sub_of_le (a b : Nat) (hb : b ≤ a) (ha : (a : Int) ≤ INT_MAX) :
    (size_t_sub a b : Int) = (a : Int) - (b : Int) := by
  unfold INT_MAX at ha
  unfold size_t_sub
  have h0 : (0 : Int) ≤ (a : Int) - (b : Int) := by omega
  have h2 : ((a : Int) - (b : Int)) % 2 ^ 64 = (a : Int) - (b : Int) :=
    Int.emod_eq_of_lt h0 (by omega)
  rw [h2, Int.toNat_of_nonneg h0]

/-- The conversion path, unfolded: what `iconvConvert` does with an open context on arguments
that pass the four assertions. -/
theorem iconvConvert_open (iconv : IconvFn) (ic : Int) (src dst : Mem) (len outputMaxLen : Int)
    (hic : ic ≠ -1) (h0 : 0 ≤ len) (h1 : len < outputMaxLen) :
    iconvConvert iconv ic (some src) len (some dst) outputMaxLen
      = if size_t_to_int
            (iconv ic src (int_to_size_t len) (store dst 0 0) (int_to_size_t outputMaxLen)).returnValue ≥ 0
          ∧ (iconv ic src (int_to_size_t len) (store dst 0 0) (int_to_size_t outputMaxLen)).inLeft = 0
        then
          (Exit.returned (size_t_to_int (size_t_sub (int_to_size_t outputMaxLen)
              (iconv ic src (int_to_size_t len) (store dst 0 0) (int_to_size_t outputMaxLen)).outLeft)),
            some (store
              (iconv ic src (int_to_size_t len) (store dst 0 0) (int_to_size_t outputMaxLen)).output
              (size_t_to_int (size_t_sub (int_to_size_t outputMaxLen)
                (iconv ic src (int_to_size_t len) (store dst 0 0) (int_to_size_t outputMaxLen)).outLeft))
              0))
        else
          (Exit.returned (-1),
            some (iconv ic src (int_to_size_t len) (store dst 0 0) (int_to_size_t outputMaxLen)).output) := by
  unfold iconvConvert
  simp [h0, h1, hic]

/-- C5. Success exactly when the whole source is consumed: with an open context and `int`
arguments that pass the assertions, for an engine call `r` that keeps the promises of iconv(3)
(the result is `(size_t)-1` or a count of at most `len`, `outLeft` does not grow), `iconvConvert`
returns a non-negative value exactly when `r` is not the error value `(size_t)-1` and `r.inLeft` is
zero; then the value is `outputMaxLen - r.outLeft`, the destination is the engine output with a
zero stored at exactly that offset (every other byte is the engine output); otherwise the value is
`-1` and the destination is what the engine left. -/
theorem iconvConvert_success_iff (iconv : IconvFn) (ic : Int) (src dst : Mem)
    (len outputMaxLen : Int) (r : IconvResult)
    (hic : ic ≠ -1) (h0 : 0 ≤ len) (h1 : len < outputMaxLen) (h2 : outputMaxLen ≤ INT_MAX)
    (hr : iconv ic src (int_to_size_t len) (store dst 0 0) (int_to_size_t outputMaxLen) = r)
    (hwf : r.WellFormed (int_to_size_t len) (int_to_size_t outputMaxLen)) :
    ((∃ v : Int, 0 ≤ v ∧
        (iconvConvert iconv ic (some src) len (some dst) outputMaxLen).1 = Exit.returned v)
      ↔ (r.returnValue ≠ SIZE_MAX ∧ r.inLeft = 0))
    ∧ ((r.returnValue ≠ SIZE_MAX ∧ r.inLeft = 0) →
        iconvConvert iconv ic (some src) len (some dst) outputMaxLen
          = (Exit.returned (outputMaxLen - (r.outLeft : Int)),
              some (store r.output (outputMaxLen - (r.outLeft : Int)) 0))
        ∧ store r.output (outputMaxLen - (r.outLeft : Int)) 0 (outputMaxLen - (r.outLeft : Int)) = 0
        ∧ ∀ i : Int, i ≠ outputMaxLen - (r.outLeft : Int) →
            store r.output (outputMaxLen - (r.outLeft : Int)) 0 i = r.output i)
    ∧ (¬ (r.returnValue ≠ SIZE_MAX ∧ r.inLeft = 0) →
        iconvConvert iconv ic (some src) len (some dst) outputMaxLen
          = (Exit.returned (-1), some r.output)) := by
  have hlen : (int_to_size_t len : Int) = len := int_to_size_t_of_nonneg len h0 (by omega)
  have hmax : (int_to_size_t outputMaxLen : Int) = outputMaxLen :=
    int_to_size_t_of_nonneg outputMaxLen (by omega) h2
  obtain ⟨hrv, _, hol⟩ := hwf
  have hsub : size_t_to_int (size_t_sub (int_to_size_t outputMaxLen) r.outLeft)
      = outputMaxLen - (r.outLeft : Int) := by
    have hs := size_t_sub_of_le (int_to_size_t outputMaxLen) r.outLeft hol (by omega)
    rw [size_t_to_int_of_small _ (by omega), hs, hmax]
  have hok : size_t_to_int r.returnValue ≥ 0 ↔ r.returnValue ≠ SIZE_MAX := by
    rcases hrv with h | h
    · rw [h, size_t_to_int_SIZE_MAX]
      simp
    · have hsmall : (r.returnValue : Int) ≤ INT_MAX := by omega
      rw [size_t_to_int_of_small _ hsmall]
      have hne : r.returnValue ≠ SIZE_MAX := by
        unfold SIZE_MAX
        unfold INT_MAX at hsmall
        omega
      simp [hne]
  have hopen := iconvConvert_open iconv ic src dst len outputMaxLen hic h0 h1
  rw [hr, hsub] at hopen
  have hnn : 0 ≤ outputMaxLen - (r.outLeft : Int) := by omega
  by_cases hc : r.returnValue ≠ SIZE_MAX ∧ r.inLeft = 0
  · have hc2 : size_t_to_int r.returnValue ≥ 0 ∧ r.inLeft = 0 := ⟨hok.mpr hc.1, hc.2⟩
    rw [if_pos hc2] at hopen
    refine ⟨⟨fun _ => hc, fun _ => ⟨_, hnn, by rw [hopen]⟩⟩, fun _ => ⟨hopen, ?_, ?_⟩,
      fun hn => absurd hc hn⟩
    · simp [store]
    · intro i hi
      simp [store, hi]
  · have hc2 : ¬ (size_t_to_int r.returnValue ≥ 0 ∧ r.inLeft = 0) :=
      fun h => hc ⟨hok.mp h.1, h.2⟩
    rw [if_neg hc2] at hopen
    refine ⟨⟨?_, fun h => absurd h hc⟩, fun h => absurd h hc, fun _ => hopen⟩
    rintro ⟨v, hv, hv2⟩
    rw [hopen] at hv2
    simp only [Exit.returned.injEq] at hv2
    omega

/-- C5 at a concrete call: the ISO-8859-1 byte `E9` converted to UTF-8 with capacity 3. -/
theorem iconvConvert_success_iff_sample :
    sampleCall.WellFormed (int_to_size_t 1) (int_to_size_t 3)
    ∧ (((∃ v : Int, 0 ≤ v ∧
        (iconvConvert (tableIconv latin1ToUtf8) 1 (some (memOf [233] 0)) 1
          (some (memOf [] 170)) 3).1 = Exit.returned v)
      ↔ (sampleCall.returnValue ≠ SIZE_MAX ∧ sampleCall.inLeft = 0))
    ∧ ((sampleCall.returnValue ≠ SIZE_MAX ∧ sampleCall.inLeft = 0) →
        iconvConvert (tableIconv latin1ToUtf8) 1 (some (memOf [233] 0)) 1 (some (memOf [] 170)) 3
          = (Exit.returned (3 - (sampleCall.outLeft : Int)),
              some (store sampleCall.output (3 - (sampleCall.outLeft : Int)) 0))
        ∧ store sampleCall.output (3 - (sampleCall.outLeft : Int)) 0
            (3 - (sampleCall.outLeft : Int)) = 0
        ∧ ∀ i : Int, i ≠ 3 - (sampleCall.outLeft : Int) →
            store sampleCall.output (3 - (sampleCall.outLeft : Int)) 0 i = sampleCall.output i)
    ∧ (¬ (sampleCall.returnValue ≠ SIZE_MAX ∧ sampleCall.inLeft = 0) →
        iconvConvert (tableIconv latin1ToUtf8) 1 (some (memOf [233] 0)) 1 (some (memOf [] 170)) 3
          = (Exit.returned (-1), some sampleCall.output)))
    ∧ (sampleCall.returnValue ≠ SIZE_MAX ∧ sampleCall.inLeft = 0)
    ∧ (iconvConvert (tableIconv latin1ToUtf8) 1 (some (memOf [233] 0)) 1
          (some (memOf [] 170)) 3).1 = Exit.returned 2 :=
  ⟨by decide,
    iconvConvert_success_iff (tableIconv latin1ToUtf8) 1 (memOf [233] 0) (memOf [] 170) 1 3
      sampleCall (by decide) (by decide) (by decide) (by decide) rfl (by decide),
    by decide, by decide⟩

/-! ## The assertions of iconvConvert -/

/-- C4. Precondition violations fail fast: `iconvConvert` ends in `utfError` (abort) exactly when
the source pointer is null, or `len < 0`, or the destination pointer is null, or
`outputMaxLen <= len`; when it aborts the destination is as it was on entry (nothing has been
written); in particular a call with `outputMaxLen = len` aborts and returns no length. -/
theorem iconvConvert_aborts_iff (iconv : IconvFn) (ic : Int) (bytes : Option Mem) (len : Int)
    (output : Option Mem) (outputMaxLen : Int) :
    ((iconvConvert iconv ic bytes len output outputMaxLen).1.isAborted = true
      ↔ (bytes = none ∨ len < 0 ∨ output = none ∨ outputMaxLen ≤ len))
    ∧ ((iconvConvert iconv ic bytes len output outputMaxLen).1.isAborted = true →
        (iconvConvert iconv ic bytes len output outputMaxLen).2 = output)
    ∧ (outputMaxLen = len →
        (iconvConvert iconv ic bytes len output outputMaxLen).1.isAborted = true
        ∧ (∀ v : Int, (iconvConvert iconv ic bytes len output outputMaxLen).1 ≠ Exit.returned v)
        ∧ (iconvConvert iconv ic bytes len output outputMaxLen).2 = output) := by
  have key : ((iconvConvert iconv ic bytes len output outputMaxLen).1.isAborted = true
      ↔ (bytes = none ∨ len < 0 ∨ output = none ∨ outputMaxLen ≤ len))
    ∧ ((iconvConvert iconv ic bytes len output outputMaxLen).1.isAborted = true →
        (iconvConvert iconv ic bytes len output outputMaxLen).2 = output) := by
    cases bytes with
    | none => simp [iconvConvert, utfError, Exit.isAborted]
    | some src =>
      by_cases h0 : 0 ≤ len
      · cases output with
        | none => simp [iconvConvert, utfError, Exit.isAborted, h0]
        | some dst =>
          by_cases h1 : len < outputMaxLen
          · have hn0 : ¬ len < 0 := by omega
            have hn1 : ¬ outputMaxLen ≤ len := by omega
            unfold iconvConvert
            simp only [ge_iff_le, gt_iff_lt, h0, h1, not_true_eq_false, if_false]
            split <;> [split; skip] <;> simp [Exit.isAborted, hn0, hn1]
          · have h1b : outputMaxLen ≤ len := by omega
            simp [iconvConvert, utfError, Exit.isAborted, h0, h1b]
      · have hlt : len < 0 := by omega
        simp [iconvConvert, utfError, Exit.isAborted, hlt]
  refine ⟨key.1, key.2, fun heq => ?_⟩
  have hab : (iconvConvert iconv ic bytes len output outputMaxLen).1.isAborted = true :=
    key.1.mpr (Or.inr (Or.inr (Or.inr (by omega))))
  refine ⟨hab, fun v hv => ?_, key.2 hab⟩
  rw [hv] at hab
  simp [Exit.isAborted] at hab

/-- C4 at a concrete call: "hello" with `outputMaxLen = 5 = len` aborts at the fourth assertion and
leaves the destination untouched. -/
theorem iconvConvert_aborts_iff_capacity_eq_len :
    (((iconvConvert noIconv (-1) (some (memOf helloBytes 255)) 5 (some (memOf [] 170)) 5).1.isAborted
        = true
      ↔ ((some (memOf helloBytes 255) : Option Mem) = none ∨ (5 : Int) < 0
          ∨ (some (memOf [] 170) : Option Mem) = none ∨ (5 : Int) ≤ 5))
    ∧ ((iconvConvert noIconv (-1) (some (memOf helloBytes 255)) 5 (some (memOf [] 170)) 5).1.isAborted
        = true →
        (iconvConvert noIconv (-1) (some (memOf helloBytes 255)) 5 (some (memOf [] 170)) 5).2
          = some (memOf [] 170))
    ∧ ((5 : Int) = 5 →
        (iconvConvert noIconv (-1) (some (memOf helloBytes 255)) 5 (some (memOf [] 170)) 5).1.isAborted
          = true
        ∧ (∀ v : Int,
            (iconvConvert noIconv (-1) (some (memOf helloBytes 255)) 5 (some (memOf [] 170)) 5).1
              ≠ Exit.returned v)
        ∧ (iconvConvert noIconv (-1) (some (memOf helloBytes 255)) 5 (some (memOf [] 170)) 5).2
          = some (memOf [] 170)))
    ∧ (iconvConvert noIconv (-1) (some (memOf helloBytes 255)) 5 (some (memOf [] 170)) 5).1
        = Exit.aborted srcFile 212 "ASSERT ERROR outputMaxLen>len" :=
  ⟨iconvConvert_aborts_iff noIconv (-1) (some (memOf helloBytes 255)) 5 (some (memOf [] 170)) 5,
    by decide⟩

/-! ## utfInitialize -/

/-- What `utfInitialize` does, by the codeset it ends up with. -/
theorem utfInitialize_eq (env : Env) (s : State) :
    utfInitialize env s =
      match resolvedCodeset env with
      | none =>
        (Exit.returned (),
          { s with trace := s.trace ++ [Event.setlocale, Event.nl_langinfo] })
      | some cs =>
        if isNoopCodeset cs then
          (Exit.returned (),
            { s with trace := s.trace ++ [Event.setlocale, Event.nl_langinfo] })
        else if env.iconv_open cs "UTF-8" = -1 then
          (Exit.aborted srcFile 176 "Failed to complete iconv_open() setup",
            { iconvToPlatform := -1, iconvFromPlatform := s.iconvFromPlatform,
              trace := s.trace ++ [Event.setlocale, Event.nl_langinfo,
                Event.iconv_open cs "UTF-8" (-1)] })
        else if env.iconv_open "UTF-8" cs = -1 then
          (Exit.aborted srcFile 180 "Failed to complete iconv_open() setup",
            { iconvToPlatform := env.iconv_open cs "UTF-8", iconvFromPlatform := -1,
              trace := s.trace ++ [Event.setlocale, Event.nl_langinfo,
                Event.iconv_open cs "UTF-8" (env.iconv_open cs "UTF-8"),
                Event.iconv_open "UTF-8" cs (-1)] })
        else
          (Exit.returned (),
            { iconvToPlatform := env.iconv_open cs "UTF-8",
              iconvFromPlatform := env.iconv_open "UTF-8" cs,
              trace := s.trace ++ [Event.setlocale, Event.nl_langinfo,
                Event.iconv_open cs "UTF-8" (env.iconv_open cs "UTF-8"),
                Event.iconv_open "UTF-8" cs (env.iconv_open "UTF-8" cs)] }) := by
  unfold utfInitialize resolvedCodeset
  cases hn : env.nl_langinfo with
  | none => simp
  | some codeset0 =>
    by_cases he : codeset0 = ""
    · simp [he]
    · simp only [he, if_false]
      split_ifs <;> simp_all [utfError, isNoopCodeset]

theorem resolvedCodeset_ne_empty (env : Env) (cs : String) (h : resolvedCodeset env = some cs) :
    cs ≠ "" := by
  unfold resolvedCodeset at h
  cases hn : env.nl_langinfo with
  | none => simp [hn] at h
  | some codeset0 =>
    simp only [hn] at h
    split_ifs at h with h1 h2
    · simp only [Option.some.injEq] at h
      rw [← h]
      decide
    · simp only [Option.some.injEq] at h
      rw [← h]
      exact h1

theorem resolvedCodeset_eq_none_iff (env : Env) :
    resolvedCodeset env = none ↔ (env.nl_langinfo = none ∨ env.nl_langinfo = some "") := by
  unfold resolvedCodeset
  cases hn : env.nl_langinfo with
  | none => simp
  | some codeset0 =>
    by_cases he : codeset0 = ""
    · simp [he]
    · simp only [he, if_false]
      split_ifs <;> simp [he]

/-- The no-op case of `utfInitialize`: the codeset is unknown, or it is "UTF-8" or "utf8". -/
theorem utfInitialize_noop (env : Env) (s : State)
    (h : resolvedCodeset env = none ∨ ∃ cs, resolvedCodeset env = some cs ∧ isNoopCodeset cs) :
    utfInitialize env s
      = (Exit.returned (), { s with trace := s.trace ++ [Event.setlocale, Event.nl_langinfo] }) := by
  rw [utfInitialize_eq]
  rcases h with h | ⟨cs, h, hn⟩
  · rw [h]
  · rw [h]
    simp [hn]

/-- C8. Context-open failure is fatal: `utfInitialize` ends in `utfError` (abort) exactly when the
codeset it ends up with is non-empty, is not the no-op case, and `iconv_open(codeset, "UTF-8")`
fails or, that one having succeeded, `iconv_open("UTF-8", codeset)` fails. When the first open
fails it is the only `iconv_open` call made; when it succeeds the two calls are made in the order
UTF-8 to platform, platform to UTF-8. With `nl_langinfo` giving `NULL` or the empty string the
function returns, opens nothing and leaves both handles as they were, so unopened when they were
unopened. -/
theorem utfInitialize_aborts_iff (env : Env) (s : State) :
    ((utfInitialize env s).1.isAborted = true
      ↔ ∃ cs, resolvedCodeset env = some cs ∧ cs ≠ "" ∧ ¬ isNoopCodeset cs
          ∧ (env.iconv_open cs "UTF-8" = -1
              ∨ (env.iconv_open cs "UTF-8" ≠ -1 ∧ env.iconv_open "UTF-8" cs = -1)))
    ∧ (∀ cs, resolvedCodeset env = some cs → ¬ isNoopCodeset cs →
        env.iconv_open cs "UTF-8" = -1 →
          opens (utfInitialize env s).2.trace
            = opens s.trace ++ [Event.iconv_open cs "UTF-8" (-1)])
    ∧ (∀ cs, resolvedCodeset env = some cs → ¬ isNoopCodeset cs →
        env.iconv_open cs "UTF-8" ≠ -1 →
          opens (utfInitialize env s).2.trace
            = opens s.trace ++ [Event.iconv_open cs "UTF-8" (env.iconv_open cs "UTF-8"),
                Event.iconv_open "UTF-8" cs (env.iconv_open "UTF-8" cs)])
    ∧ ((env.nl_langinfo = none ∨ env.nl_langinfo = some "") →
        (utfInitialize env s).1 = Exit.returned ()
        ∧ opens (utfInitialize env s).2.trace = opens s.trace
        ∧ (utfInitialize env s).2.iconvToPlatform = s.iconvToPlatform
        ∧ (utfInitialize env s).2.iconvFromPlatform = s.iconvFromPlatform
        ∧ (s.iconvToPlatform = -1 → s.iconvFromPlatform = -1 →
            (utfInitialize env s).2.iconvToPlatform = -1
            ∧ (utfInitialize env s).2.iconvFromPlatform = -1)) := by
  refine ⟨?_, ?_, ?_, ?_⟩
  · rw [utfInitialize_eq]
    cases hr : resolvedCodeset env with
    | none => simp [Exit.isAborted]
    | some cs =>
      have hne := resolvedCodeset_ne_empty env cs hr
      by_cases hn : isNoopCodeset cs
      · simp [hn, Exit.isAborted]
      · by_cases h1 : env.iconv_open cs "UTF-8" = -1
        · simp [hn, h1, hne, Exit.isAborted]
        · by_cases h2 : env.iconv_open "UTF-8" cs = -1
          · simp [hn, h1, h2, hne, Exit.isAborted]
          · simp [hn, h1, h2, Exit.isAborted]
  · intro cs hr hn h1
    rw [utfInitialize_eq, hr]
    simp [hn, h1, opens]
  · intro cs hr hn h1
    rw [utfInitialize_eq, hr]
    by_cases h2 : env.iconv_open "UTF-8" cs = -1
    · simp [hn, h1, h2, opens]
    · simp [hn, h1, h2, opens]
  · intro h
    have hr := (resolvedCodeset_eq_none_iff env).mpr h
    rw [utfInitialize_noop env s (Or.inl hr)]
    refine ⟨rfl, by simp [opens], rfl, rfl, fun h1 h2 => ⟨h1, h2⟩⟩

/-- C8 at concrete environments: with ISO-8859-1 and an `iconv_open` that fails, `utfInitialize`
aborts at line 176 after a single `iconv_open` call; with no codeset it returns and both handles
stay unopened. -/
theorem utfInitialize_aborts_iff_samples :
    opens (utfInitialize noConversionEnv initialState).2.trace
      = opens initialState.trace ++ [Event.iconv_open "ISO-8859-1" "UTF-8" (-1)]
    ∧ (utfInitialize noConversionEnv initialState).1
      = Exit.aborted srcFile 176 "Failed to complete iconv_open() setup"
    ∧ ((utfInitialize (sampleEnv none noIconv) initialState).1 = Exit.returned ()
      ∧ opens (utfInitialize (sampleEnv none noIconv) initialState).2.trace
          = opens initialState.trace
      ∧ (utfInitialize (sampleEnv none noIconv) initialState).2.iconvToPlatform
          = initialState.iconvToPlatform
      ∧ (utfInitialize (sampleEnv none noIconv) initialState).2.iconvFromPlatform
          = initialState.iconvFromPlatform
      ∧ (initialState.iconvToPlatform = -1 → initialState.iconvFromPlatform = -1 →
          (utfInitialize (sampleEnv none noIconv) initialState).2.iconvToPlatform = -1
          ∧ (utfInitialize (sampleEnv none noIconv) initialState).2.iconvFromPlatform = -1)) :=
  ⟨(utfInitialize_aborts_iff noConversionEnv initialState).2.1 "ISO-8859-1" (by decide)
      (by decide) (by decide),
    by decide,
    (utfInitialize_aborts_iff (sampleEnv none noIconv) initialState).2.2.2 (Or.inl rfl)⟩

/-! ## utfTerminate -/

/-- C9. Teardown: for every state of the two handles, `utfTerminate` calls `iconv_close` once on
`iconvFromPlatform` if it is open, then once on `iconvToPlatform` if it is open, and on nothing
else; afterwards both handles are `(iconv_t)-1`. A second `utfTerminate` changes nothing (no
close), and the next call of the entry point runs `utfInitialize` again. -/
theorem utfTerminate_closes_open_handles (s : State) :
    (utfTerminate s).trace
      = s.trace
        ++ (if s.iconvFromPlatform ≠ -1 then [Event.iconv_close s.iconvFromPlatform] else [])
        ++ (if s.iconvToPlatform ≠ -1 then [Event.iconv_close s.iconvToPlatform] else [])
    ∧ (utfTerminate s).iconvToPlatform = -1
    ∧ (utfTerminate s).iconvFromPlatform = -1
    ∧ utfTerminate (utfTerminate s) = utfTerminate s
    ∧ closes (utfTerminate (utfTerminate s)).trace = closes (utfTerminate s).trace
    ∧ ∀ (env : Env) (utf8_str : Option Mem) (utf8_len : Int) (platform_str : Option Mem)
        (platform_len : Int),
        (convertUft8ToPlatformString env (utfTerminate s) utf8_str utf8_len platform_str
            platform_len).2.2 = (utfInitialize env (utfTerminate s)).2
        ∧ resolverCalls (convertUft8ToPlatformString env (utfTerminate s) utf8_str utf8_len
            platform_str platform_len).2.2.trace = resolverCalls (utfTerminate s).trace + 1 := by
  have hto : (utfTerminate s).iconvToPlatform = -1 := by
    unfold utfTerminate
    rfl
  have hidem : utfTerminate (utfTerminate s) = utfTerminate s := by
    by_cases h1 : s.iconvFromPlatform = -1 <;> by_cases h2 : s.iconvToPlatform = -1 <;>
      simp [utfTerminate, h1, h2]
  refine ⟨?_, hto, ?_, hidem, by rw [hidem], ?_⟩
  · by_cases h1 : s.iconvFromPlatform = -1 <;> by_cases h2 : s.iconvToPlatform = -1 <;>
      simp [utfTerminate, h1, h2]
  · unfold utfTerminate
    rfl
  · intro env a b c d
    have hst : (convertUft8ToPlatformString env (utfTerminate s) a b c d).2.2
        = (utfInitialize env (utfTerminate s)).2 := by
      unfold convertUft8ToPlatformString
      rw [if_pos hto]
      rcases hi : utfInitialize env (utfTerminate s) with ⟨e, s1⟩
      cases e <;> rfl
    refine ⟨hst, ?_⟩
    rw [hst, utfInitialize_eq]
    cases resolvedCodeset env with
    | none => simp [resolverCalls]
    | some cs =>
      simp only
      split_ifs <;> simp [resolverCalls]

/-! ## The entry point -/

theorem convert_of_open (env : Env) (s : State) (utf8_str : Option Mem) (utf8_len : Int)
    (platform_str : Option Mem) (platform_len : Int) (h : s.iconvToPlatform ≠ -1) :
    convertUft8ToPlatformString env s utf8_str utf8_len platform_str platform_len
      = ((utf8ToPlatform env s utf8_str utf8_len platform_str platform_len).1,
          (utf8ToPlatform env s utf8_str utf8_len platform_str platform_len).2, s) := by
  unfold convertUft8ToPlatformString
  rw [if_neg h]

theorem convert_state_of_unopened (env : Env) (s : State) (utf8_str : Option Mem)
    (utf8_len : Int) (platform_str : Option Mem) (platform_len : Int)
    (h : s.iconvToPlatform = -1) :
    (convertUft8ToPlatformString env s utf8_str utf8_len platform_str platform_len).2.2
      = (utfInitialize env s).2 := by
  unfold convertUft8ToPlatformString
  rw [if_pos h]
  rcases hi : utfInitialize env s with ⟨e, s1⟩
  cases e <;> rfl

theorem convert_of_noop (env : Env) (s : State) (utf8_str : Option Mem) (utf8_len : Int)
    (platform_str : Option Mem) (platform_len : Int) (h : s.iconvToPlatform = -1)
    (hn : resolvedCodeset env = none ∨ ∃ cs, resolvedCodeset env = some cs ∧ isNoopCodeset cs) :
    convertUft8ToPlatformString env s utf8_str utf8_len platform_str platform_len
      = ((iconvConvert env.iconv (-1) utf8_str utf8_len platform_str platform_len).1,
          (iconvConvert env.iconv (-1) utf8_str utf8_len platform_str platform_len).2,
          { s with trace := s.trace ++ [Event.setlocale, Event.nl_langinfo] }) := by
  unfold convertUft8ToPlatformString
  rw [if_pos h, utfInitialize_noop env s hn]
  simp [utf8ToPlatform, h]

theorem runCalls_of_open (env : Env) (s : State) (calls : List Call)
    (h : s.iconvToPlatform ≠ -1) : (runCalls env s calls).2 = s := by
  induction calls with
  | nil => rfl
  | cons c cs ih =>
    unfold runCalls
    rw [convert_of_open env s _ _ _ _ h]
    cases (utf8ToPlatform env s c.utf8_str c.utf8_len c.platform_str c.platform_len).1 with
    | returned v => exact ih
    | aborted f l m => rfl

theorem runCalls_cons_state (env : Env) (s : State) (c : Call) (rest : List Call)
    (h : (convertUft8ToPlatformString env s c.utf8_str c.utf8_len c.platform_str
        c.platform_len).2.2.iconvToPlatform ≠ -1) :
    (runCalls env s (c :: rest)).2
      = (convertUft8ToPlatformString env s c.utf8_str c.utf8_len c.platform_str
          c.platform_len).2.2 := by
  unfold runCalls
  rcases hc : convertUft8ToPlatformString env s c.utf8_str c.utf8_len c.platform_str
    c.platform_len with ⟨e, m, s1⟩
  rw [hc] at h
  cases e with
  | returned v => exact runCalls_of_open env s1 rest h
  | aborted f l m => rfl

theorem iconvConvert_unopened (iconv : IconvFn) (src dst : Mem) (len outputMaxLen : Int)
    (h0 : 0 ≤ len) (h1 : len < outputMaxLen) :
    iconvConvert iconv (-1) (some src) len (some dst) outputMaxLen
      = (Exit.returned len, some (store (memcpy (store dst 0 0) src (int_to_size_t len)) len 0)) := by
  unfold iconvConvert
  simp [h0, h1]

/-- C6. Idempotent initialization: from the initial state, with a codeset that requires
conversion and both `iconv_open` calls succeeding, the first call of the entry point makes exactly
the two calls `iconv_open(codeset, "UTF-8")` and `iconv_open("UTF-8", codeset)`, in this order, and
stores their results in the two handles; the state after any number of further calls is the state
after the first call (no further `iconv_open`, handles unchanged), because a call that finds
`iconvToPlatform` open leaves the state as it is. -/
theorem convert_opens_once (env : Env) (cs : String) (c : Call) (rest : List Call)
    (hcs : resolvedCodeset env = some cs) (hn : ¬ isNoopCodeset cs)
    (h1 : env.iconv_open cs "UTF-8" ≠ -1) (h2 : env.iconv_open "UTF-8" cs ≠ -1) :
    opens (convertUft8ToPlatformString env initialState c.utf8_str c.utf8_len c.platform_str
        c.platform_len).2.2.trace
      = [Event.iconv_open cs "UTF-8" (env.iconv_open cs "UTF-8"),
          Event.iconv_open "UTF-8" cs (env.iconv_open "UTF-8" cs)]
    ∧ (convertUft8ToPlatformString env initialState c.utf8_str c.utf8_len c.platform_str
        c.platform_len).2.2.iconvToPlatform = env.iconv_open cs "UTF-8"
    ∧ (convertUft8ToPlatformString env initialState c.utf8_str c.utf8_len c.platform_str
        c.platform_len).2.2.iconvFromPlatform = env.iconv_open "UTF-8" cs
    ∧ (runCalls env initialState (c :: rest)).2
        = (convertUft8ToPlatformString env initialState c.utf8_str c.utf8_len c.platform_str
            c.platform_len).2.2
    ∧ opens (runCalls env initialState (c :: rest)).2.trace
        = [Event.iconv_open cs "UTF-8" (env.iconv_open cs "UTF-8"),
            Event.iconv_open "UTF-8" cs (env.iconv_open "UTF-8" cs)]
    ∧ (∀ (s : State) (utf8_str : Option Mem) (utf8_len : Int) (platform_str : Option Mem)
        (platform_len : Int), s.iconvToPlatform ≠ -1 →
        (convertUft8ToPlatformString env s utf8_str utf8_len platform_str platform_len).2.2 = s) := by
  have hst : (convertUft8ToPlatformString env initialState c.utf8_str c.utf8_len c.platform_str
      c.platform_len).2.2
      = { iconvToPlatform := env.iconv_open cs "UTF-8",
          iconvFromPlatform := env.iconv_open "UTF-8" cs,
          trace := [Event.setlocale, Event.nl_langinfo,
            Event.iconv_open cs "UTF-8" (env.iconv_open cs "UTF-8"),
            Event.iconv_open "UTF-8" cs (env.iconv_open "UTF-8" cs)] } := by
    rw [convert_state_of_unopened env initialState _ _ _ _ rfl, utfInitialize_eq, hcs]
    simp [hn, h1, h2, initialState]
  have hrun := runCalls_cons_state env initialState c rest (by rw [hst]; exact h1)
  refine ⟨?_, ?_, ?_, hrun, ?_, ?_⟩
  · rw [hst]
    simp [opens]
  · rw [hst]
  · rw [hst]
  · rw [hrun, hst]
    simp [opens]
  · intro s a b c d hs
    rw [convert_of_open env s a b c d hs]

/-- C6 at a concrete run: three calls in an ISO-8859-1 locale open one pair of descriptors. -/
theorem convert_opens_once_three_calls :
    opens (convertUft8ToPlatformString (sampleEnv (some "ISO-8859-1") (tableIconv utf8ToAscii))
        initialState helloCall.utf8_str helloCall.utf8_len helloCall.platform_str
        helloCall.platform_len).2.2.trace
      = [Event.iconv_open "ISO-8859-1" "UTF-8" 1, Event.iconv_open "UTF-8" "ISO-8859-1" 2]
    ∧ opens (runCalls (sampleEnv (some "ISO-8859-1") (tableIconv utf8ToAscii)) initialState
        (helloCall :: [helloCall, helloCall])).2.trace
      = [Event.iconv_open "ISO-8859-1" "UTF-8" 1, Event.iconv_open "UTF-8" "ISO-8859-1" 2]
    ∧ (runCalls (sampleEnv (some "ISO-8859-1") (tableIconv utf8ToAscii)) initialState
        (helloCall :: [helloCall, helloCall])).1
      = [Exit.returned 5, Exit.returned 5, Exit.returned 5] :=
  ⟨(convert_opens_once (sampleEnv (some "ISO-8859-1") (tableIconv utf8ToAscii)) "ISO-8859-1"
      helloCall [helloCall, helloCall] (by decide) (by decide) (by decide) (by decide)).1,
    (convert_opens_once (sampleEnv (some "ISO-8859-1") (tableIconv utf8ToAscii)) "ISO-8859-1"
      helloCall [helloCall, helloCall] (by decide) (by decide) (by decide) (by decide)).2.2.2.2.1,
    by decide⟩

/-! ## The no-op codesets -/

/-- C7 as stated fails: the codeset name "utf-8" equals "UTF-8" when case is ignored, yet
`utfInitialize` opens both conversion contexts for it, so the claim that every such name opens
nothing is false. -/
theorem utfInitialize_lowercase_utf8_opens :
    isUtf8IgnoringCase "utf-8"
    ∧ resolvedCodeset (sampleEnv (some "utf-8") noIconv) = some "utf-8"
    ∧ opens (utfInitialize (sampleEnv (some "utf-8") noIconv) initialState).2.trace
        = [Event.iconv_open "utf-8" "UTF-8" 1, Event.iconv_open "UTF-8" "utf-8" 2]
    ∧ (utfInitialize (sampleEnv (some "utf-8") noIconv) initialState).2.iconvToPlatform = 1
    ∧ (utfInitialize (sampleEnv (some "utf-8") noIconv) initialState).2.iconvFromPlatform = 2
    ∧ ¬ (∀ (env : Env) (cs : String), resolvedCodeset env = some cs → isUtf8IgnoringCase cs →
          opens (utfInitialize env initialState).2.trace = []
          ∧ (utfInitialize env initialState).2.iconvToPlatform = -1
          ∧ (utfInitialize env initialState).2.iconvFromPlatform = -1) := by
  refine ⟨by decide, by decide, by decide, by decide, by decide, fun h => ?_⟩
  have h1 := (h (sampleEnv (some "utf-8") noIconv) "utf-8" (by decide) (by decide)).2.1
  revert h1
  decide

/-- C7, amended. For a codeset that is exactly "UTF-8" or exactly "utf8" (the two `strcmp`
comparisons of the code), `utfInitialize` entered with both handles unopened returns, makes no
`iconv_open` call and leaves both handles unopened; in the state it leaves, `utf8ToPlatform` and
`platformToUtf8` do not use the engine, and for arguments that pass the assertions they and the
entry point give the raw copy: the value `len`, the source bytes and the terminator. -/
theorem utfInitialize_exact_utf8_noop (env : Env) (s : State) (cs : String)
    (hcs : resolvedCodeset env = some cs) (hn : cs = "UTF-8" ∨ cs = "utf8")
    (h1 : s.iconvToPlatform = -1) (h2 : s.iconvFromPlatform = -1) :
    (utfInitialize env s).1 = Exit.returned ()
    ∧ opens (utfInitialize env s).2.trace = opens s.trace
    ∧ (utfInitialize env s).2.iconvToPlatform = -1
    ∧ (utfInitialize env s).2.iconvFromPlatform = -1
    ∧ (∀ (bytes : Option Mem) (len : Int) (output : Option Mem) (outputMaxLen : Int),
        utf8ToPlatform env (utfInitialize env s).2 bytes len output outputMaxLen
          = iconvConvert noIconv (-1) bytes len output outputMaxLen
        ∧ platformToUtf8 env (utfInitialize env s).2 bytes len output outputMaxLen
          = iconvConvert noIconv (-1) bytes len output outputMaxLen)
    ∧ (∀ (src dst : Mem) (len outputMaxLen : Int), 0 ≤ len → len < outputMaxLen →
        utf8ToPlatform env (utfInitialize env s).2 (some src) len (some dst) outputMaxLen
          = (Exit.returned len,
              some (store (memcpy (store dst 0 0) src (int_to_size_t len)) len 0))
        ∧ platformToUtf8 env (utfInitialize env s).2 (some src) len (some dst) outputMaxLen
          = (Exit.returned len,
              some (store (memcpy (store dst 0 0) src (int_to_size_t len)) len 0))
        ∧ (convertUft8ToPlatformString env (utfInitialize env s).2 (some src) len (some dst)
            outputMaxLen).1 = Exit.returned len
        ∧ (convertUft8ToPlatformString env (utfInitialize env s).2 (some src) len (some dst)
            outputMaxLen).2.1
          = some (store (memcpy (store dst 0 0) src (int_to_size_t len)) len 0)
        ∧ opens (convertUft8ToPlatformString env (utfInitialize env s).2 (some src) len
            (some dst) outputMaxLen).2.2.trace = opens s.trace) := by
  have hnoop : resolvedCodeset env = none
      ∨ ∃ cs, resolvedCodeset env = some cs ∧ isNoopCodeset cs := Or.inr ⟨cs, hcs, hn⟩
  have hraw : ∀ (iconv : IconvFn) (bytes : Option Mem) (len : Int) (output : Option Mem)
      (outputMaxLen : Int), iconvConvert iconv (-1) bytes len output outputMaxLen
        = iconvConvert noIconv (-1) bytes len output outputMaxLen := by
    intro iconv bytes len output outputMaxLen
    unfold iconvConvert
    simp
  rw [utfInitialize_noop env s hnoop]
  refine ⟨rfl, by simp [opens], h1, h2, ?_, ?_⟩
  · intro bytes len output outputMaxLen
    simp only [utf8ToPlatform, platformToUtf8, h1, h2]
    exact ⟨hraw _ _ _ _ _, hraw _ _ _ _ _⟩
  · intro src dst len outputMaxLen h0 hlt
    have hraw2 := iconvConvert_unopened env.iconv src dst len outputMaxLen h0 hlt
    have hc := convert_of_noop env
      { s with trace := s.trace ++ [Event.setlocale, Event.nl_langinfo] }
      (some src) len (some dst) outputMaxLen h1 hnoop
    dsimp only at hc ⊢
    rw [hc, hraw2]
    refine ⟨?_, ?_, rfl, rfl, ?_⟩
    · simp only [utf8ToPlatform, h1]
      exact hraw2
    · simp only [platformToUtf8, h2]
      exact hraw2
    · simp [opens]

/-- C7, amended, at a concrete environment: the codeset "utf8". -/
theorem utfInitialize_exact_utf8_noop_sample :
    (utfInitialize (sampleEnv (some "utf8") (tableIconv utf8ToAscii)) initialState).1
      = Exit.returned ()
    ∧ opens (utfInitialize (sampleEnv (some "utf8") (tableIconv utf8ToAscii))
        initialState).2.trace = opens initialState.trace
    ∧ (utfInitialize (sampleEnv (some "utf8") (tableIconv utf8ToAscii))
        initialState).2.iconvToPlatform = -1
    ∧ (utfInitialize (sampleEnv (some "utf8") (tableIconv utf8ToAscii))
        initialState).2.iconvFromPlatform = -1 :=
  ⟨(utfInitialize_exact_utf8_noop (sampleEnv (some "utf8") (tableIconv utf8ToAscii))
      initialState "utf8" (by decide) (by decide) (by decide) (by decide)).1,
    (utfInitialize_exact_utf8_noop (sampleEnv (some "utf8") (tableIconv utf8ToAscii))
      initialState "utf8" (by decide) (by decide) (by decide) (by decide)).2.1,
    (utfInitialize_exact_utf8_noop (sampleEnv (some "utf8") (tableIconv utf8ToAscii))
      initialState "utf8" (by decide) (by decide) (by decide) (by decide)).2.2.1,
    (utfInitialize_exact_utf8_noop (sampleEnv (some "utf8") (tableIconv utf8ToAscii))
      initialState "utf8" (by decide) (by decide) (by decide) (by decide)).2.2.2.1⟩

/-! ## How often the codeset is resolved -/

theorem utfInitialize_resolverCalls (env : Env) (s : State) :
    resolverCalls (utfInitialize env s).2.trace = resolverCalls s.trace + 1
    ∧ localeCalls (utfInitialize env s).2.trace = localeCalls s.trace + 1 := by
  rw [utfInitialize_eq]
  cases resolvedCodeset env with
  | none => simp [resolverCalls, localeCalls]
  | some cs =>
    simp only
    split_ifs <;> simp [resolverCalls, localeCalls]

theorem runCalls_noop (env : Env)
    (hn : resolvedCodeset env = none ∨ ∃ cs, resolvedCodeset env = some cs ∧ isNoopCodeset cs)
    (calls : List Call) :
    ∀ s : State, s.iconvToPlatform = -1 →
      (runCalls env s calls).2.iconvToPlatform = -1
      ∧ resolverCalls (runCalls env s calls).2.trace
          = resolverCalls s.trace + (runCalls env s calls).1.length
      ∧ ((∀ c ∈ calls, c.Valid) → (runCalls env s calls).1.length = calls.length) := by
  induction calls with
  | nil =>
    intro s h
    exact ⟨h, rfl, fun _ => rfl⟩
  | cons c cs ih =>
    intro s h
    have hstep := convert_of_noop env s c.utf8_str c.utf8_len c.platform_str c.platform_len h hn
    have ih2 := ih { s with trace := s.trace ++ [Event.setlocale, Event.nl_langinfo] } h
    have hcount : resolverCalls (s.trace ++ [Event.setlocale, Event.nl_langinfo])
        = resolverCalls s.trace + 1 := by
      simp [resolverCalls]
    unfold runCalls
    rw [hstep]
    cases hx : (iconvConvert env.iconv (-1) c.utf8_str c.utf8_len c.platform_str
        c.platform_len).1 with
    | returned v =>
      dsimp only
      refine ⟨ih2.1, ?_, fun hv => ?_⟩
      · rw [ih2.2.1, hcount, List.length_cons]
        omega
      · rw [List.length_cons, List.length_cons,
          ih2.2.2 (fun c1 hc1 => hv c1 (List.mem_cons_of_mem _ hc1))]
    | aborted f l m =>
      dsimp only
      refine ⟨h, ?_, fun hv => ?_⟩
      · rw [hcount]
        rfl
      · exfalso
        obtain ⟨hv1, hv2, hv3, hv4⟩ := hv c (List.mem_cons_self _ _)
        obtain ⟨src, hsrc⟩ := Option.isSome_iff_exists.mp hv1
        obtain ⟨dst, hdst⟩ := Option.isSome_iff_exists.mp hv3
        rw [hsrc, hdst, iconvConvert_unopened env.iconv src dst _ _ hv2 hv4] at hx
        simp at hx

/-- C10 as stated fails: with the codeset "UTF-8" the first call leaves the handles unopened and
the second call runs `utfInitialize` again, so two calls query the codeset twice. -/
theorem resolver_runs_again_for_utf8 :
    resolvedCodeset (sampleEnv (some "UTF-8") noIconv) = some "UTF-8"
    ∧ (runCalls (sampleEnv (some "UTF-8") noIconv) initialState [helloCall]).2.iconvToPlatform = -1
    ∧ (runCalls (sampleEnv (some "UTF-8") noIconv) initialState [helloCall]).2.iconvFromPlatform
        = -1
    ∧ resolverCalls (runCalls (sampleEnv (some "UTF-8") noIconv) initialState
        [helloCall]).2.trace = 1
    ∧ (runCalls (sampleEnv (some "UTF-8") noIconv) initialState [helloCall, helloCall]).1
        = [Exit.returned 5, Exit.returned 5]
    ∧ resolverCalls (runCalls (sampleEnv (some "UTF-8") noIconv) initialState
        [helloCall, helloCall]).2.trace = 2
    ∧ localeCalls (runCalls (sampleEnv (some "UTF-8") noIconv) initialState
        [helloCall, helloCall]).2.trace = 2
    ∧ resolverCalls (runCalls (sampleEnv none noIconv) initialState
        [helloCall, helloCall]).2.trace = 2
    ∧ ¬ (∀ (env : Env) (calls : List Call),
          resolverCalls (runCalls env initialState calls).2.trace ≤ 1) := by
  refine ⟨by decide, by decide, by decide, by decide, by decide, by decide, by decide,
    by decide, fun h => ?_⟩
  have h1 := h (sampleEnv (some "UTF-8") noIconv) [helloCall, helloCall]
  revert h1
  decide

/-- C10, amended. A call of the entry point runs the codeset resolver exactly when it finds
`iconvToPlatform` unopened: a call that finds it open leaves the state as it is, a call that finds
it unopened makes one `setlocale` and one `nl_langinfo` call. Hence, from the initial state and
without teardown: when the first call opens `iconvToPlatform`, the resolver runs once in any
sequence of calls, during the first call; when the codeset is unknown, "UTF-8" or "utf8", the
handle stays unopened and the resolver runs once in every call made, so `n` calls that pass the
assertions run it `n` times. -/
theorem resolver_runs_while_unopened (env : Env) :
    (∀ (s : State) (utf8_str : Option Mem) (utf8_len : Int) (platform_str : Option Mem)
        (platform_len : Int), s.iconvToPlatform ≠ -1 →
        (convertUft8ToPlatformString env s utf8_str utf8_len platform_str platform_len).2.2 = s)
    ∧ (∀ (s : State) (utf8_str : Option Mem) (utf8_len : Int) (platform_str : Option Mem)
        (platform_len : Int), s.iconvToPlatform = -1 →
        resolverCalls (convertUft8ToPlatformString env s utf8_str utf8_len platform_str
            platform_len).2.2.trace = resolverCalls s.trace + 1
        ∧ localeCalls (convertUft8ToPlatformString env s utf8_str utf8_len platform_str
            platform_len).2.2.trace = localeCalls s.trace + 1)
    ∧ (∀ (c : Call) (rest : List Call),
        (convertUft8ToPlatformString env initialState c.utf8_str c.utf8_len c.platform_str
            c.platform_len).2.2.iconvToPlatform ≠ -1 →
        resolverCalls (runCalls env initialState (c :: rest)).2.trace = 1
        ∧ localeCalls (runCalls env initialState (c :: rest)).2.trace = 1)
    ∧ ((resolvedCodeset env = none
          ∨ ∃ cs, resolvedCodeset env = some cs ∧ (cs = "UTF-8" ∨ cs = "utf8")) →
        ∀ calls : List Call,
          (runCalls env initialState calls).2.iconvToPlatform = -1
          ∧ resolverCalls (runCalls env initialState calls).2.trace
              = (runCalls env initialState calls).1.length
          ∧ ((∀ c ∈ calls, c.Valid) →
              resolverCalls (runCalls env initialState calls).2.trace = calls.length)) := by
  refine ⟨?_, ?_, ?_, ?_⟩
  · intro s a b c d hs
    rw [convert_of_open env s a b c d hs]
  · intro s a b c d hs
    rw [convert_state_of_unopened env s a b c d hs]
    exact utfInitialize_resolverCalls env s
  · intro c rest hopen
    rw [runCalls_cons_state env initialState c rest hopen,
      convert_state_of_unopened env initialState _ _ _ _ rfl]
    have h := utfInitialize_resolverCalls env initialState
    simpa [resolverCalls, localeCalls, initialState] using h
  · intro hn calls
    have h := runCalls_noop env hn calls initialState rfl
    have h0 : resolverCalls initialState.trace = 0 := rfl
    refine ⟨h.1, by rw [h.2.1, h0, Nat.zero_add], fun hv => ?_⟩
    rw [h.2.1, h0, Nat.zero_add, h.2.2 hv]

/-- C10, amended, at concrete runs: three calls with the codeset "UTF-8" resolve three times,
three calls with ISO-8859-1 resolve once. -/
theorem resolver_runs_while_unopened_samples :
    resolverCalls (runCalls (sampleEnv (some "UTF-8") noIconv) initialState
        [helloCall, helloCall, helloCall]).2.trace = [helloCall, helloCall, helloCall].length
    ∧ (resolverCalls (runCalls (sampleEnv (some "ISO-8859-1") (tableIconv utf8ToAscii))
          initialState (helloCall :: [helloCall, helloCall])).2.trace = 1
      ∧ localeCalls (runCalls (sampleEnv (some "ISO-8859-1") (tableIconv utf8ToAscii))
          initialState (helloCall :: [helloCall, helloCall])).2.trace = 1) :=
  ⟨((resolver_runs_while_unopened (sampleEnv (some "UTF-8") noIconv)).2.2.2
      (Or.inr ⟨"UTF-8", by decide, Or.inl rfl⟩) [helloCall, helloCall, helloCall]).2.2
      (by decide),
    (resolver_runs_while_unopened (sampleEnv (some "ISO-8859-1") (tableIconv utf8ToAscii))).2.2.1
      helloCall [helloCall, helloCall] (by decide)⟩

/-! ## Two defects of the conversion path -/

/-- C2, the code at the boundary: the ISO-8859-1 byte `E9` converts to the two UTF-8 bytes
`C3 A9`, so `L = 2`. With `outputMaxLen = 3` the call returns 2. With `outputMaxLen = 2 = L` the
engine is given all 2 bytes, fills them, and the call returns 2 instead of `-1` and stores the
terminator at offset 2, one past a destination of 2 bytes (the byte `AA` there becomes 0). So a
successful return value is not always below `outputMaxLen`. -/
theorem iconvConvert_terminator_past_capacity :
    (iconvConvert (tableIconv latin1ToUtf8) 1 (some (memOf [233] 0)) 1
        (some (memOf [] 170)) 3).1 = Exit.returned 2
    ∧ (iconvConvert (tableIconv latin1ToUtf8) 1 (some (memOf [233] 0)) 1
        (some (memOf [] 170)) 3).2.map (fun m => readBytes m 4) = some [195, 169, 0, 170]
    ∧ (iconvConvert (tableIconv latin1ToUtf8) 1 (some (memOf [233] 0)) 1
        (some (memOf [] 170)) 2).1 = Exit.returned 2
    ∧ (iconvConvert (tableIconv latin1ToUtf8) 1 (some (memOf [233] 0)) 1
        (some (memOf [] 170)) 2).2.map (fun m => readBytes m 4) = some [195, 169, 0, 170]
    ∧ ¬ (∀ (iconv : IconvFn) (ic : Int) (src dst : Mem) (len outputMaxLen v : Int),
          ic ≠ -1 → 0 ≤ len → len < outputMaxLen → outputMaxLen ≤ INT_MAX →
          (iconv ic src (int_to_size_t len) (store dst 0 0) (int_to_size_t outputMaxLen)).WellFormed
            (int_to_size_t len) (int_to_size_t outputMaxLen) →
          (iconvConvert iconv ic (some src) len (some dst) outputMaxLen).1 = Exit.returned v →
          0 ≤ v → v < outputMaxLen) := by
  refine ⟨by decide, by decide, by decide, by decide, fun h => ?_⟩
  have h1 := h (tableIconv latin1ToUtf8) 1 (memOf [233] 0) (memOf [] 170) 1 2 2
    (by decide) (by decide) (by decide) (by decide) (by decide) (by decide) (by decide)
  revert h1
  decide

/-- C3, the code on a failing conversion: the UTF-8 bytes `61 C3 A9` ("a" and a character that
US-ASCII cannot hold) with `outputMaxLen = 4`. The engine writes `61`, then reports an error; the
call returns `-1` and the destination byte at offset 0 is `61`, not zero. -/
theorem iconvConvert_failure_keeps_engine_output :
    (tableIconv utf8ToAscii 1 (memOf [97, 195, 169] 0) (int_to_size_t 3)
        (store (memOf [] 170) 0 0) (int_to_size_t 4)).WellFormed (int_to_size_t 3) (int_to_size_t 4)
    ∧ (iconvConvert (tableIconv utf8ToAscii) 1 (some (memOf [97, 195, 169] 0)) 3
        (some (memOf [] 170)) 4).1 = Exit.returned (-1)
    ∧ (iconvConvert (tableIconv utf8ToAscii) 1 (some (memOf [97, 195, 169] 0)) 3
        (some (memOf [] 170)) 4).2.map (fun m => readBytes m 2) = some [97, 170]
    ∧ ¬ (∀ (iconv : IconvFn) (ic : Int) (src dst : Mem) (len outputMaxLen : Int),
          ic ≠ -1 → 0 ≤ len → len < outputMaxLen →
          (iconvConvert iconv ic (some src) len (some dst) outputMaxLen).1 = Exit.returned (-1) →
          (iconvConvert iconv ic (some src) len (some dst) outputMaxLen).2.map (fun m => m 0)
            = some 0) := by
  refine ⟨by decide, by decide, by decide, fun h => ?_⟩
  have h1 := h (tableIconv utf8ToAscii) 1 (memOf [97, 195, 169] 0) (memOf [] 170) 3 4
    (by decide) (by decide) (by decide) (by decide)
  revert h1
  decide

end EncodingSupport
